import Mathlib

/-!
Verification development for the chat application's conversation-context core.

The embedding translates the backend services and route logic:
  - `src/backend/src/services/contextManager.ts` (ContextManager)
  - `src/backend/src/routes/chat.ts` (POST handler and cleanup sweep)
  - the frontend optimistic-message handling used by the send-message flow.

Modelling conventions:
  - JS strings are modelled as `List Char` (so `length`, `trim`, and the
    regular-expression tests are directly definable); error messages that are
    only ever compared as opaque literals stay as `String`.
  - Timestamps (`Date` values) are integers counting milliseconds.
  - The float division in `shouldCleanupConversation` is modelled as exact
    rational division; for integer millisecond differences the comparison
    with 24 is exact (the quotient is never rounded across 24).
-/

set_option maxRecDepth 8000

namespace Chatbot

/-- Message roles (backend `types`): `system`, `user`, `assistant`. -/
inductive Role
  | system
  | user
  | assistant
deriving DecidableEq, Repr

/-- A conversation message (backend `Message` type): id, role, content,
timestamp, and the optional back-reference to the conversation. -/
structure Message where
  id : String
  role : Role
  content : List Char
  timestamp : Int
  conversationId : Option String := none
deriving DecidableEq, Repr

/-! ### ContextManager constants (contextManager.ts lines 4-7) -/

def MAX_TOKENS : Nat := 4000
def MAX_MESSAGES : Nat := 30
def KEEP_RECENT_MESSAGES : Nat := 10

/-- ContextManager.estimateTokens: `Math.ceil(message.content.length / 4) + 10`.
For a natural `n`, `Math.ceil(n / 4)` is `(n + 3) / 4` in integer division. -/
def estimateTokens (message : Message) : Nat :=
  (message.content.length + 3) / 4 + 10

/-- ContextManager.calculateTotalTokens: a `reduce` with initial accumulator 0. -/
def calculateTotalTokens (messages : List Message) : Nat :=
  messages.foldl (fun total msg => total + estimateTokens msg) 0

/-- The `while` loop of ContextManager.trimConversation (lines 50-56):
while more than 2 messages remain and the total estimated tokens exceed
`MAX_TOKENS`, remove the message at index 1 (`splice(1, 1)`). -/
def trimLoop (trimmedMessages : List Message) : List Message :=
  if h : 2 < trimmedMessages.length ∧ MAX_TOKENS < calculateTotalTokens trimmedMessages then
    trimLoop (trimmedMessages.eraseIdx 1)
  else
    trimmedMessages
termination_by trimmedMessages.length
decreasing_by
  rw [List.length_eraseIdx_of_lt (by omega)]
  omega

/-- The `systemMessage` selection of trimConversation (line 29), wrapped as the
initial segment pushed onto the output (lines 41-43): the first message with
role `system`, if any. -/
def pinnedSystem (messages : List Message) : List Message :=
  match messages.find? (fun msg => msg.role == Role.system) with
  | some s => [s]
  | none => []

/-- The recent-message window of trimConversation (line 46):
`nonSystemMessages.slice(-KEEP_RECENT_MESSAGES)`, the last
`KEEP_RECENT_MESSAGES` non-system messages. -/
def recentWindow (messages : List Message) : List Message :=
  let nonSystemMessages := messages.filter (fun msg => msg.role != Role.system)
  nonSystemMessages.drop (nonSystemMessages.length - KEEP_RECENT_MESSAGES)

/-- ContextManager.trimConversation (lines 27-59). If the non-system count and
the total estimated tokens are within limits, the input is returned as is;
otherwise the output is the pinned system message (if any) followed by the
recent window, reduced by the token-budget loop. -/
def trimConversation (messages : List Message) : List Message :=
  let nonSystemMessages := messages.filter (fun msg => msg.role != Role.system)
  if nonSystemMessages.length ≤ MAX_MESSAGES ∧ calculateTotalTokens messages ≤ MAX_TOKENS then
    messages
  else
    trimLoop (pinnedSystem messages ++ recentWindow messages)

/-! ### Validation (contextManager.ts lines 107-135) -/

/-- JS `String.prototype.trim`: drop whitespace from both ends. -/
def jsTrim (s : List Char) : List Char :=
  ((s.dropWhile Char.isWhitespace).reverse.dropWhile Char.isWhitespace).reverse

/-- JS `\w` character class (ASCII letters, digits, underscore). -/
def isWordChar (c : Char) : Bool :=
  c.isAlpha || c.isDigit || c == '_'

/-- Does the pattern list occur as the initial segment of the subject list? -/
def startsWithChars : List Char → List Char → Bool
  | [], _ => true
  | _ :: _, [] => false
  | p :: ps, c :: cs => p == c && startsWithChars ps cs

/-- Does the predicate hold at some suffix of the list (regex search)? -/
def scanAny (p : List Char → Bool) : List Char → Bool
  | [] => p []
  | c :: rest => p (c :: rest) || scanAny p rest

/-- Whitespace, then the target character (regex fragment `\s*target`). -/
def wsThen (target : Char) : List Char → Bool
  | [] => false
  | c :: rest => if c.isWhitespace then wsThen target rest else c == target

/-- After the first mandatory word character of `\w+\s*=`: skip the rest of
the word run, then whitespace, then expect `=`. -/
def wordRunWsEqAux : List Char → Bool
  | [] => false
  | c :: rest => if isWordChar c then wordRunWsEqAux rest else wsThen '=' (c :: rest)

/-- Regex fragment `\w+\s*=`: at least one word character, then optional
whitespace, then `=`. Word characters, whitespace, and `=` are pairwise
disjoint, so the greedy match needs no backtracking. -/
def wordRunWsEq : List Char → Bool
  | [] => false
  | c :: rest => isWordChar c && wordRunWsEqAux rest

/-- Word-boundary check used after `<script`: boundary at end of input or
before a non-word character. -/
def nonWordBoundary : List Char → Bool
  | [] => true
  | c :: _ => !isWordChar c

def patJavascriptUri : List Char := "javascript:".toList
def patScriptTag : List Char := "<script".toList
def patOn : List Char := "on".toList
def patEvalName : List Char := "eval".toList

/-- Case-insensitive matching: lower the subject (the patterns are lowercase). -/
def lowered (content : List Char) : List Char := content.map Char.toLower

/-- Test for `/javascript:/i`. -/
def testJavascriptUri (content : List Char) : Bool :=
  scanAny (fun s => startsWithChars patJavascriptUri s) (lowered content)

/-- Test for `/<script\b/i`. -/
def testScriptTag (content : List Char) : Bool :=
  scanAny (fun s => startsWithChars patScriptTag s && nonWordBoundary (s.drop 7)) (lowered content)

/-- Test for `/on\w+\s*=/i` (inline event-handler assignment). -/
def testEventHandler (content : List Char) : Bool :=
  scanAny (fun s => startsWithChars patOn s && wordRunWsEq (s.drop 2)) (lowered content)

/-- Test for the `eval(`-style call pattern with optional whitespace. -/
def testEvalCall (content : List Char) : Bool :=
  scanAny (fun s => startsWithChars patEvalName s && wsThen '(' (s.drop 4)) (lowered content)

/-- The `maliciousPatterns` loop (lines 121-132): the loop returns the same
error on the first matching pattern, so it reduces to a disjunction. -/
def containsMaliciousPattern (content : List Char) : Bool :=
  testJavascriptUri content || testScriptTag content ||
    testEventHandler content || testEvalCall content

/-- Result record of ContextManager.validateMessage: `{ valid, error? }`. -/
structure ValidationResult where
  valid : Bool
  error : Option String := none
deriving DecidableEq, Repr

def errEmptyString : String := "Message content must be a non-empty string"
def errCannotBeEmpty : String := "Message cannot be empty"
def errTooLong : String := "Message is too long (maximum 10,000 characters)"
def errUnsafe : String := "Message contains potentially unsafe content"

/-- ContextManager.validateMessage (lines 107-135). The input domain is
strings, so the JS `!content || typeof content !== 'string'` guard reduces to
the empty-string test. Checks apply in order, first failure wins. -/
def validateMessage (content : List Char) : ValidationResult :=
  if content = [] then
    { valid := false, error := some errEmptyString }
  else if (jsTrim content).length = 0 then
    { valid := false, error := some errCannotBeEmpty }
  else if 10000 < content.length then
    { valid := false, error := some errTooLong }
  else if containsMaliciousPattern content then
    { valid := false, error := some errUnsafe }
  else
    { valid := true }

/-! ### Session cleanup (contextManager.ts lines 98-102, chat.ts lines 20-27) -/

/-- The per-conversation record stored in the `conversations` map of chat.ts:
`{ messages, lastActivity }`. -/
structure ConversationData where
  messages : List Message
  lastActivity : Int
deriving DecidableEq, Repr

/-- The `hoursSinceActivity` computation of shouldCleanupConversation:
`(now - lastActivity) / (1000 * 60 * 60)`, as exact rational division (the
float comparison with 24 is exact for integer millisecond differences). -/
def hoursSinceActivity (lastActivity now : Int) : ℚ :=
  ((now - lastActivity : Int) : ℚ) / (1000 * 60 * 60)

/-- ContextManager.shouldCleanupConversation, with the `new Date()` it reads
made an explicit `now` parameter: true when more than 24 hours have passed. -/
def shouldCleanupConversation (lastActivity now : Int) : Bool :=
  decide (24 < hoursSinceActivity lastActivity now)

/-- The hourly cleanup sweep of chat.ts (lines 20-27): delete every
conversation whose `lastActivity` satisfies `shouldCleanupConversation`. -/
def cleanupSweep (conversations : List (String × ConversationData)) (now : Int) :
    List (String × ConversationData) :=
  conversations.filter (fun entry => !shouldCleanupConversation entry.2.lastActivity now)

/-! ### Helper lemmas about the token estimator and the trim loop -/

lemma calculateTotalTokens_eq_sum (messages : List Message) :
    calculateTotalTokens messages = (messages.map estimateTokens).sum := by
  suffices h : ∀ a : Nat, messages.foldl (fun total msg => total + estimateTokens msg) a =
      a + (messages.map estimateTokens).sum by
    simpa [calculateTotalTokens] using h 0
  induction messages with
  | nil => intro a; simp
  | cons m ms ih => intro a; simp [ih]; omega

lemma trimLoop_eq_self {l : List Message}
    (h : ¬(2 < l.length ∧ MAX_TOKENS < calculateTotalTokens l)) : trimLoop l = l := by
  rw [trimLoop, dif_neg h]

lemma trimLoop_length_le (l : List Message) : (trimLoop l).length ≤ l.length := by
  induction l using trimLoop.induct with
  | case1 l h ih =>
    rw [trimLoop, dif_pos h]
    exact le_trans ih (List.length_eraseIdx_le l 1)
  | case2 l h => rw [trimLoop, dif_neg h]

lemma trimLoop_length_ge2 {l : List Message} (h2 : 2 ≤ l.length) :
    2 ≤ (trimLoop l).length := by
  induction l using trimLoop.induct with
  | case1 l h ih =>
    rw [trimLoop, dif_pos h]
    exact ih (by rw [List.length_eraseIdx_of_lt (by omega)]; omega)
  | case2 l h => rw [trimLoop, dif_neg h]; exact h2

lemma trimLoop_subset (l : List Message) : trimLoop l ⊆ l := by
  induction l using trimLoop.induct with
  | case1 l h ih =>
    rw [trimLoop, dif_pos h]
    exact fun x hx => List.eraseIdx_subset l 1 (ih hx)
  | case2 l h => rw [trimLoop, dif_neg h]; exact fun x hx => hx

lemma trimLoop_not_cond (l : List Message) :
    ¬(2 < (trimLoop l).length ∧ MAX_TOKENS < calculateTotalTokens (trimLoop l)) := by
  induction l using trimLoop.induct with
  | case1 l h ih => rw [trimLoop, dif_pos h]; exact ih
  | case2 l h => rw [trimLoop, dif_neg h]; exact h

lemma trimLoop_cons_aux : ∀ (n : Nat) (a : Message) (t : List Message), t.length ≤ n →
    ∃ t2, trimLoop (a :: t) = a :: t2 ∧ t2 ⊆ t := by
  intro n
  induction n with
  | zero =>
    intro a t ht
    have hnil : t = [] := List.length_eq_zero.mp (Nat.le_zero.mp ht)
    subst hnil
    refine ⟨[], trimLoop_eq_self ?_, fun x hx => hx⟩
    simp
  | succ n ih =>
    intro a t ht
    by_cases hc : 2 < (a :: t).length ∧ MAX_TOKENS < calculateTotalTokens (a :: t)
    · rw [trimLoop, dif_pos hc]
      obtain ⟨b, t3, rfl⟩ : ∃ b t3, t = b :: t3 := by
        cases t with
        | nil => simp at hc
        | cons b t3 => exact ⟨b, t3, rfl⟩
      have he : (a :: b :: t3).eraseIdx 1 = a :: t3 := rfl
      rw [he]
      obtain ⟨t2, heq, hsub⟩ := ih a t3 (by simp at ht; omega)
      exact ⟨t2, heq, fun x hx => List.mem_cons_of_mem b (hsub hx)⟩
    · rw [trimLoop, dif_neg hc]
      exact ⟨t, rfl, fun x hx => hx⟩

lemma trimLoop_cons (a : Message) (t : List Message) :
    ∃ t2, trimLoop (a :: t) = a :: t2 ∧ t2 ⊆ t :=
  trimLoop_cons_aux t.length a t le_rfl

/-! ### Helper lemmas about trimConversation -/

lemma trimConversation_of_le {messages : List Message}
    (h : (messages.filter (fun msg => msg.role != Role.system)).length ≤ MAX_MESSAGES ∧
      calculateTotalTokens messages ≤ MAX_TOKENS) :
    trimConversation messages = messages := by
  simp only [trimConversation]
  rw [if_pos h]

lemma trimConversation_of_over {messages : List Message}
    (h : ¬((messages.filter (fun msg => msg.role != Role.system)).length ≤ MAX_MESSAGES ∧
      calculateTotalTokens messages ≤ MAX_TOKENS)) :
    trimConversation messages = trimLoop (pinnedSystem messages ++ recentWindow messages) := by
  simp only [trimConversation]
  rw [if_neg h]

lemma recentWindow_length_le (messages : List Message) :
    (recentWindow messages).length ≤ KEEP_RECENT_MESSAGES := by
  simp only [recentWindow, List.length_drop]
  omega

lemma mem_recentWindow_role {messages : List Message} {m : Message}
    (hm : m ∈ recentWindow messages) : (m.role != Role.system) = true := by
  simp only [recentWindow] at hm
  exact (List.mem_filter.mp (List.drop_subset _ _ hm)).2

lemma trimConversation_over_sys {messages : List Message} {s : Message}
    (hfind : messages.find? (fun msg => msg.role == Role.system) = some s)
    (hover : ¬((messages.filter (fun msg => msg.role != Role.system)).length ≤ MAX_MESSAGES ∧
      calculateTotalTokens messages ≤ MAX_TOKENS)) :
    ∃ t2, trimConversation messages = s :: t2 ∧ t2 ⊆ recentWindow messages := by
  rw [trimConversation_of_over hover]
  simp only [pinnedSystem, hfind, List.singleton_append]
  exact trimLoop_cons s (recentWindow messages)

lemma trimConversation_over_nosys {messages : List Message}
    (hfind : messages.find? (fun msg => msg.role == Role.system) = none)
    (hover : ¬((messages.filter (fun msg => msg.role != Role.system)).length ≤ MAX_MESSAGES ∧
      calculateTotalTokens messages ≤ MAX_TOKENS)) :
    trimConversation messages = trimLoop (recentWindow messages) := by
  rw [trimConversation_of_over hover]
  simp only [pinnedSystem, hfind, List.nil_append]

lemma trimConversation_idem (messages : List Message) :
    trimConversation (trimConversation messages) = trimConversation messages := by
  by_cases hA : (messages.filter (fun msg => msg.role != Role.system)).length ≤ MAX_MESSAGES ∧
      calculateTotalTokens messages ≤ MAX_TOKENS
  · rw [trimConversation_of_le hA, trimConversation_of_le hA]
  · rcases hfind : messages.find? (fun msg => msg.role == Role.system) with _ | s
    · -- no system message in the input
      rw [trimConversation_over_nosys hfind hA]
      set o := trimLoop (recentWindow messages) with ho
      have hsubset : o ⊆ recentWindow messages := trimLoop_subset _
      have holen : o.length ≤ KEEP_RECENT_MESSAGES :=
        le_trans (trimLoop_length_le _) (recentWindow_length_le _)
      have hrole : ∀ m ∈ o, (m.role != Role.system) = true :=
        fun m hm => mem_recentWindow_role (hsubset hm)
      have hfilter : o.filter (fun msg => msg.role != Role.system) = o :=
        List.filter_eq_self.mpr hrole
      by_cases htok : calculateTotalTokens o ≤ MAX_TOKENS
    -- under budget after the loop: the identity branch applies
      · refine trimConversation_of_le ⟨?_, htok⟩
        rw [hfilter]
        exact le_trans holen (by norm_num [KEEP_RECENT_MESSAGES, MAX_MESSAGES])
      · -- floor case: the loop stopped with at most 2 messages still over budget
        have hnc := trimLoop_not_cond (recentWindow messages)
        rw [← ho] at hnc
        have hlen2 : o.length ≤ 2 := by
          by_contra hgt
          exact hnc ⟨not_le.mp hgt, not_le.mp htok⟩
        have hfind2 : o.find? (fun msg => msg.role == Role.system) = none := by
          rw [List.find?_eq_none]
          intro x hx
          simpa using hrole x hx
        rw [trimConversation_over_nosys hfind2 (fun hc => htok hc.2)]
        have hrw : recentWindow o = o := by
          simp only [recentWindow, hfilter]
          have hz : o.length - KEEP_RECENT_MESSAGES = 0 := by
            simp only [KEEP_RECENT_MESSAGES]; omega
          rw [hz, List.drop_zero]
        rw [hrw]
        exact trimLoop_eq_self (fun hc => absurd hc.1 (not_lt.mpr hlen2))
    · -- the first system message s is pinned
      have hbase := trimConversation_of_over hA
      obtain ⟨t2, heq2, hsub⟩ : ∃ t2,
          trimLoop (pinnedSystem messages ++ recentWindow messages) = s :: t2 ∧
            t2 ⊆ recentWindow messages := by
        simp only [pinnedSystem, hfind, List.singleton_append]
        exact trimLoop_cons s (recentWindow messages)
      have heq : trimConversation messages = s :: t2 := hbase.trans heq2
      rw [heq]
      have hseq : s.role = Role.system := by
        have h1 := List.find?_some hfind
        simpa using h1
      have hsfalse : (s.role != Role.system) = false := by simp [hseq]
      have hrole : ∀ m ∈ t2, (m.role != Role.system) = true :=
        fun m hm => mem_recentWindow_role (hsub hm)
      have hfil : (s :: t2).filter (fun msg => msg.role != Role.system) = t2 := by
        simp only [List.filter_cons, hsfalse, Bool.false_eq_true, if_false]
        exact List.filter_eq_self.mpr hrole
      have ht2len : t2.length ≤ KEEP_RECENT_MESSAGES := by
        have hl := trimLoop_length_le (pinnedSystem messages ++ recentWindow messages)
        rw [heq2] at hl
        simp only [pinnedSystem, hfind, List.length_append, List.length_cons,
          List.length_nil] at hl
        have hrwl := recentWindow_length_le messages
        omega
      by_cases htok : calculateTotalTokens (s :: t2) ≤ MAX_TOKENS
      · refine trimConversation_of_le ⟨?_, htok⟩
        rw [hfil]
        exact le_trans ht2len (by norm_num [KEEP_RECENT_MESSAGES, MAX_MESSAGES])
      · have hnc := trimLoop_not_cond (pinnedSystem messages ++ recentWindow messages)
        rw [heq2] at hnc
        have hlen2 : t2.length ≤ 1 := by
          by_contra hgt
          exact hnc ⟨by simp; omega, not_le.mp htok⟩
        have hover2 : ¬(((s :: t2).filter
            (fun msg => msg.role != Role.system)).length ≤ MAX_MESSAGES ∧
              calculateTotalTokens (s :: t2) ≤ MAX_TOKENS) := fun hc => htok hc.2
        rw [trimConversation_of_over hover2]
        have hfind3 : (s :: t2).find? (fun msg => msg.role == Role.system) = some s := by
          simp [hseq]
        have hpin : pinnedSystem (s :: t2) = [s] := by
          simp only [pinnedSystem, hfind3]
        have hrecw : recentWindow (s :: t2) = t2 := by
          simp only [recentWindow, hfil]
          have hz : t2.length - KEEP_RECENT_MESSAGES = 0 := by
            simp only [KEEP_RECENT_MESSAGES]; omega
          rw [hz, List.drop_zero]
        rw [hpin, hrecw, List.singleton_append]
        refine trimLoop_eq_self fun hc => ?_
        have h1 := hc.1
        simp only [List.length_cons] at h1
        omega

/-! ### The POST /api/chat pipeline (chat.ts lines 29-144)

The handler pushes the user message onto the session's message array, replaces
the array with `trimConversation` of it, stores that trimmed array back into
the conversation map, hands the same trimmed array to the completion provider,
and on success pushes the assistant message onto it (and stores it again). On
a provider failure the catch blocks do not push any assistant message: the
streaming path only writes an error frame and ends the response, and the
non-streaming path forwards the error to the error-handling middleware. -/

/-- Result of the completion provider as seen by the route: a response text,
or a failure (`ProviderError`). -/
inductive ProviderResult
  | ok (text : List Char)
  | providerError
deriving DecidableEq, Repr

/-- The session state and provider payload produced by one request. -/
structure ChatOutcome where
  stored : List Message
  sentToProvider : List Message
deriving DecidableEq, Repr

/-- The assistant `Message` built by the handler from the provider's text. -/
def assistantMessageOf (assistantId : String) (ts : Int) (cid : Option String)
    (text : List Char) : Message :=
  { id := assistantId, role := Role.assistant, content := text,
    timestamp := ts, conversationId := cid }

/-- One run of the POST handler over the session history, with the freshly
minted assistant id and timestamp as parameters. `stored` is the value of
`conversationData.messages` when the handler finishes. -/
def processChat (history : List Message) (userMsg : Message) (assistantId : String)
    (ts : Int) (result : ProviderResult) : ChatOutcome :=
  let afterUser := history ++ [userMsg]
  let trimmed := trimConversation afterUser
  { sentToProvider := trimmed,
    stored :=
      match result with
      | ProviderResult.ok text =>
          trimmed ++ [assistantMessageOf assistantId ts userMsg.conversationId text]
      | ProviderResult.providerError => trimmed }

/-! ### Frontend optimistic transcript (useOptimisticMessages, ChatWindow)

The client keeps its own transcript of `OptimisticMessage` values. On a
streaming failure the backend emits an error frame, `chatService` invokes the
`onError` callback, and `handleSendMessage` rewrites the assistant placeholder
with a generic failure text and status `error`; because `sendMessageStream`
swallows the failure and resolves, the very next statement then overwrites the
status with `sent`. -/

/-- Frontend message status (optimistic-message.tsx line 8). -/
inductive MessageStatus
  | sending
  | streaming
  | sent
  | error
  | retry
deriving DecidableEq, Repr

/-- Frontend `OptimisticMessage`: a message plus its optimistic status. -/
structure OptimisticMessage where
  id : String
  role : Role
  content : List Char
  timestamp : Int
  status : MessageStatus
deriving DecidableEq, Repr

/-- useOptimisticMessages.addOptimisticMessage: append a new message with the
given status; the fresh uuid and the current time are parameters. -/
def addOptimisticMessage (messages : List OptimisticMessage) (content : List Char)
    (role : Role) (status : MessageStatus) (newId : String) (now : Int) :
    List OptimisticMessage :=
  let optimisticMessage : OptimisticMessage :=
    { id := newId, role := role, content := content,
      timestamp := now, status := status }
  messages ++ [optimisticMessage]

/-- useOptimisticMessages.updateMessageStatus: set the status of the message
with the given id. -/
def updateMessageStatus (messages : List OptimisticMessage) (messageId : String)
    (status : MessageStatus) : List OptimisticMessage :=
  messages.map (fun msg => if msg.id = messageId then { msg with status := status } else msg)

/-- useOptimisticMessages.updateMessageContent: set the content (and, when
given, the status) of the message with the given id. -/
def updateMessageContent (messages : List OptimisticMessage) (messageId : String)
    (content : List Char) (status : Option MessageStatus) : List OptimisticMessage :=
  messages.map (fun msg =>
    if msg.id = messageId then
      { msg with content := content, status := status.getD msg.status }
    else msg)

/-- The generic failure text of ChatWindow.handleSendMessage. -/
def errorFallbackText : List Char := "Sorry, I encountered an error. Please try again.".toList

/-- ChatWindow.handleSendMessage in the run where the stream fails: add the
user message (status `sending`), mark it `sent`, add the empty assistant
placeholder (status `streaming`), rewrite it with the generic failure text and
status `error` (the `onError` callback), and finally mark it `sent` (the
statement after the awaited `sendMessageStream`, which resolves because it
caught the failure itself). -/
def handleSendMessageError (messages : List OptimisticMessage) (content : List Char)
    (userMessageId assistantMessageId : String) (now : Int) : List OptimisticMessage :=
  let m1 := addOptimisticMessage messages content Role.user MessageStatus.sending
    userMessageId now
  let m2 := updateMessageStatus m1 userMessageId MessageStatus.sent
  let m3 := addOptimisticMessage m2 [] Role.assistant MessageStatus.streaming
    assistantMessageId now
  let m4 := updateMessageContent m3 assistantMessageId errorFallbackText
    (some MessageStatus.error)
  updateMessageStatus m4 assistantMessageId MessageStatus.sent

/-! ### Further helper lemmas -/

/-- Shorthand for building concrete messages in witnesses and counterexamples. -/
def mkMsg (i : Nat) (r : Role) (content : List Char) : Message :=
  { id := toString i, role := r, content := content, timestamp := Int.ofNat i }

/-- The last `k` turns of a list, in order (the claim's "last k non-system
turns" applied after filtering). -/
def lastTurns (k : Nat) (l : List Message) : List Message := l.drop (l.length - k)

lemma ceil_div_four (a : Nat) : ⌈(a : ℚ) / 4⌉ = (((a + 3) / 4 : Nat) : ℤ) := by
  set n : Nat := (a + 3) / 4 with hn
  have h1 : 4 * n ≤ a + 3 := by omega
  have h2 : a ≤ 4 * n := by omega
  have hcast : ((n : ℤ) : ℚ) = (n : ℚ) := by push_cast; ring
  rw [Int.ceil_eq_iff]
  constructor
  · rw [lt_div_iff₀ (by norm_num : (0:ℚ) < 4)]
    have h1q : (4 : ℚ) * (n : ℚ) ≤ (a : ℚ) + 3 := by exact_mod_cast h1
    rw [hcast]
    linarith
  · rw [div_le_iff₀ (by norm_num : (0:ℚ) < 4)]
    have h2q : (a : ℚ) ≤ 4 * (n : ℚ) := by exact_mod_cast h2
    rw [hcast]
    linarith

lemma sum_map_eq_card_mul {l : List Message} {c : Nat}
    (h : ∀ m ∈ l, estimateTokens m = c) :
    (l.map estimateTokens).sum = l.length * c := by
  induction l with
  | nil => simp
  | cons a t ih =>
    simp only [List.map_cons, List.sum_cons, List.length_cons]
    rw [h a (List.mem_cons_self a t), ih (fun m hm => h m (List.mem_cons_of_mem a hm))]
    ring

lemma length_ge_two_of_two_mem {l : List Message} {a b : Message}
    (ha : a ∈ l) (hb : b ∈ l) (hne : a ≠ b) : 2 ≤ l.length := by
  cases l with
  | nil => cases ha
  | cons x t =>
    cases t with
    | nil =>
      rw [List.mem_singleton] at ha hb
      exact absurd (ha.trans hb.symm) hne
    | cons y u => simp only [List.length_cons]; omega

lemma map_eq_self_of {α : Type} {l : List α} {f : α → α} (h : ∀ x ∈ l, f x = x) :
    l.map f = l := by
  induction l with
  | nil => rfl
  | cons a t ih =>
    simp only [List.map_cons, List.cons.injEq]
    exact ⟨h a (by simp), ih (fun x hx => h x (by simp [hx]))⟩

lemma updateMessageStatus_skip {l : List OptimisticMessage} {i : String}
    (h : ∀ m ∈ l, m.id ≠ i) (st : MessageStatus) : updateMessageStatus l i st = l :=
  map_eq_self_of (fun m hm => if_neg (h m hm))

lemma updateMessageContent_skip {l : List OptimisticMessage} {i : String}
    (h : ∀ m ∈ l, m.id ≠ i) (c : List Char) (st : Option MessageStatus) :
    updateMessageContent l i c st = l :=
  map_eq_self_of (fun m hm => if_neg (h m hm))

lemma jsTrim_nil : jsTrim [] = [] := rfl

lemma jsTrim_replicate_a (n : Nat) :
    jsTrim (List.replicate n 'a') = List.replicate n 'a' := by
  cases n with
  | zero => rfl
  | succ m =>
    unfold jsTrim
    rw [List.replicate_succ, List.dropWhile_cons, if_neg (by decide), ← List.replicate_succ,
      List.reverse_replicate, List.replicate_succ, List.dropWhile_cons, if_neg (by decide),
      ← List.replicate_succ, List.reverse_replicate]

lemma jsTrim_replicate_a_space (n : Nat) (hn : 0 < n) :
    jsTrim (List.replicate n 'a' ++ [' ']) = List.replicate n 'a' := by
  obtain ⟨m, rfl⟩ : ∃ m, n = m + 1 := ⟨n - 1, by omega⟩
  unfold jsTrim
  rw [List.replicate_succ, List.cons_append, List.dropWhile_cons, if_neg (by decide),
    ← List.cons_append, ← List.replicate_succ, List.reverse_append]
  rw [show ([' '] : List Char).reverse = [' '] from rfl, List.reverse_replicate,
    List.singleton_append, List.dropWhile_cons, if_pos (by decide),
    List.replicate_succ, List.dropWhile_cons, if_neg (by decide),
    ← List.replicate_succ, List.reverse_replicate]

lemma shouldCleanup_iff (lastActivity now : Int) :
    shouldCleanupConversation lastActivity now = true ↔
      (86400000 : ℤ) < now - lastActivity := by
  simp only [shouldCleanupConversation, decide_eq_true_eq, hoursSinceActivity]
  rw [show ((1000 * 60 * 60 : ℚ)) = 3600000 from by norm_num,
    lt_div_iff₀ (by norm_num : (0:ℚ) < 3600000),
    show ((24 : ℚ) * 3600000) = 86400000 from by norm_num]
  constructor
  · intro h; exact_mod_cast h
  · intro h; exact_mod_cast h

/-! ### Claim theorems -/

/-- Claim C5: a turn sequence whose non-system count is at most MAX_MESSAGES
and whose total estimated tokens (over the full input, system turn included)
are at most MAX_TOKENS is returned by trimConversation unchanged. -/
theorem C5_trim_identity_under_budget (ts : List Message)
    (hcount : (ts.filter (fun msg => msg.role != Role.system)).length ≤ MAX_MESSAGES)
    (htok : calculateTotalTokens ts ≤ MAX_TOKENS) :
    trimConversation ts = ts :=
  trimConversation_of_le ⟨hcount, htok⟩

def c5Turns : List Message := [mkMsg 0 Role.system ['h','i'], mkMsg 1 Role.user ['y','o']]

/-- Witness for C5 at a concrete two-turn conversation. -/
theorem C5_trim_identity_under_budget_witness : trimConversation c5Turns = c5Turns :=
  C5_trim_identity_under_budget c5Turns (by decide) (by decide)

/-- Claim C8: the estimated token cost of a turn is the ceiling of a quarter
of its content length plus 10; the total over a sequence is the sum of the
per-turn estimates; every estimate is a nonnegative integer. -/
theorem C8_token_estimate :
    (∀ m : Message, (estimateTokens m : ℤ) = ⌈(m.content.length : ℚ) / 4⌉ + 10) ∧
    (∀ ts : List Message, calculateTotalTokens ts = (ts.map estimateTokens).sum) ∧
    (∀ m : Message, 0 ≤ estimateTokens m) := by
  refine ⟨fun m => ?_, calculateTotalTokens_eq_sum, fun m => Nat.zero_le _⟩
  rw [ceil_div_four]
  simp only [estimateTokens]
  push_cast
  ring

/-- Claim C9: the eviction predicate holds exactly when more than 24 hours
(in milliseconds) separate `now` from `lastActivity`; the sweep keeps exactly
the entries for which the predicate is false; a session idle 25 hours is
evicted and one idle 1 hour is not. -/
theorem C9_eviction :
    (∀ lastActivity now : Int,
        shouldCleanupConversation lastActivity now = true ↔
          24 * 60 * 60 * 1000 < now - lastActivity) ∧
    (∀ (convs : List (String × ConversationData)) (now : Int)
        (e : String × ConversationData),
        e ∈ cleanupSweep convs now ↔
          e ∈ convs ∧ shouldCleanupConversation e.2.lastActivity now = false) ∧
    (∀ lastActivity now : Int, now - lastActivity = 25 * 60 * 60 * 1000 →
        shouldCleanupConversation lastActivity now = true) ∧
    (∀ lastActivity now : Int, now - lastActivity = 1 * 60 * 60 * 1000 →
        shouldCleanupConversation lastActivity now = false) := by
  refine ⟨?_, ?_, ?_, ?_⟩
  · intro l n
    rw [shouldCleanup_iff]
    constructor
    · intro h; omega
    · intro h; omega
  · intro convs now e
    simp [cleanupSweep, List.mem_filter]
  · intro l n h
    rw [shouldCleanup_iff]
    omega
  · intro l n h
    cases hb : shouldCleanupConversation l n with
    | false => rfl
    | true => exact absurd ((shouldCleanup_iff l n).mp hb) (by omega)

/-- Witness for C9: a session idle 25 hours is evicted, one idle 1 hour is
not. -/
theorem C9_eviction_witness :
    shouldCleanupConversation 0 90000000 = true ∧
      shouldCleanupConversation 0 3600000 = false :=
  ⟨C9_eviction.2.2.1 0 90000000 (by decide), C9_eviction.2.2.2 0 3600000 (by decide)⟩

/-- Claim C10: trimConversation is idempotent — trimming an already-trimmed
sequence changes nothing, including in the over-budget floor case. -/
theorem C10_trim_idempotent (ts : List Message) :
    trimConversation (trimConversation ts) = trimConversation ts :=
  trimConversation_idem ts

/-- Claim C7: for 40 user/assistant turns each estimated at 50 tokens, the
last 10 non-system turns of the trimmed output are exactly the last 10
non-system turns of the input, in the same order. -/
theorem C7_recency (ts : List Message) (hlen : ts.length = 40)
    (hroles : ∀ m ∈ ts, m.role = Role.user ∨ m.role = Role.assistant)
    (htok : ∀ m ∈ ts, estimateTokens m = 50) :
    lastTurns KEEP_RECENT_MESSAGES
        ((trimConversation ts).filter (fun msg => msg.role != Role.system)) =
      lastTurns KEEP_RECENT_MESSAGES (ts.filter (fun msg => msg.role != Role.system)) := by
  have hrole_ne : ∀ m ∈ ts, (m.role != Role.system) = true := by
    intro m hm
    rcases hroles m hm with h | h <;> simp [h]
  have hfil : ts.filter (fun msg => msg.role != Role.system) = ts :=
    List.filter_eq_self.mpr hrole_ne
  have hfind : ts.find? (fun msg => msg.role == Role.system) = none := by
    rw [List.find?_eq_none]
    intro x hx
    rcases hroles x hx with h | h <;> simp [h]
  have hover : ¬((ts.filter (fun msg => msg.role != Role.system)).length ≤ MAX_MESSAGES ∧
      calculateTotalTokens ts ≤ MAX_TOKENS) := by
    rw [hfil, hlen]
    intro hc
    exact absurd hc.1 (by norm_num [MAX_MESSAGES])
  have hrecw : recentWindow ts = ts.drop 30 := by
    simp only [recentWindow, hfil, hlen]
    norm_num [KEEP_RECENT_MESSAGES]
  have htokdrop : calculateTotalTokens (ts.drop 30) = 500 := by
    rw [calculateTotalTokens_eq_sum,
      sum_map_eq_card_mul (fun m hm => htok m (List.drop_subset 30 ts hm)),
      List.length_drop, hlen]
  have hloop : trimLoop (ts.drop 30) = ts.drop 30 := by
    refine trimLoop_eq_self fun hc => ?_
    rw [htokdrop] at hc
    exact absurd hc.2 (by norm_num [MAX_TOKENS])
  rw [trimConversation_over_nosys hfind hover, hrecw, hloop]
  have hfil2 : (ts.drop 30).filter (fun msg => msg.role != Role.system) = ts.drop 30 :=
    List.filter_eq_self.mpr (fun m hm => hrole_ne m (List.drop_subset 30 ts hm))
  rw [hfil2, hfil]
  simp [lastTurns, List.length_drop, hlen, KEEP_RECENT_MESSAGES]

def c7Turns : List Message :=
  (List.range 40).map (fun i =>
    mkMsg i (if i % 2 = 0 then Role.user else Role.assistant) (List.replicate 160 'a'))

/-- Witness for C7 on 40 concrete alternating turns of 160 characters each
(each estimated at ceil(160/4) + 10 = 50 tokens). -/
theorem C7_recency_witness :
    lastTurns KEEP_RECENT_MESSAGES
        ((trimConversation c7Turns).filter (fun msg => msg.role != Role.system)) =
      lastTurns KEEP_RECENT_MESSAGES (c7Turns.filter (fun msg => msg.role != Role.system)) :=
  C7_recency c7Turns (by decide) (by decide) (by decide)

/-- Claim C6 (amended): when the input contains a system turn and at least one
non-system turn, trimConversation returns at least 2 turns, even when those 2
turns exceed the token budget. -/
theorem C6_floor (ts : List Message)
    (hsys : ∃ m ∈ ts, m.role = Role.system)
    (hother : ∃ m ∈ ts, m.role ≠ Role.system) :
    2 ≤ (trimConversation ts).length := by
  by_cases hA : (ts.filter (fun msg => msg.role != Role.system)).length ≤ MAX_MESSAGES ∧
      calculateTotalTokens ts ≤ MAX_TOKENS
  · rw [trimConversation_of_le hA]
    obtain ⟨a, ha, har⟩ := hsys
    obtain ⟨b, hb, hbr⟩ := hother
    exact length_ge_two_of_two_mem ha hb (fun he => hbr (he ▸ har))
  · obtain ⟨s0, hfind⟩ : ∃ s0, ts.find? (fun msg => msg.role == Role.system) = some s0 := by
      cases hf : ts.find? (fun msg => msg.role == Role.system) with
      | some s0 => exact ⟨s0, rfl⟩
      | none =>
        obtain ⟨m, hm, hrole⟩ := hsys
        have := List.find?_eq_none.mp hf m hm
        simp [hrole] at this
    rw [trimConversation_of_over hA]
    refine trimLoop_length_ge2 ?_
    simp only [pinnedSystem, hfind, List.length_append, List.length_cons, List.length_nil]
    have h1 : 1 ≤ (recentWindow ts).length := by
      obtain ⟨b, hb, hbr⟩ := hother
      have hbf : b ∈ ts.filter (fun msg => msg.role != Role.system) :=
        List.mem_filter.mpr ⟨hb, by simp [hbr]⟩
      have hpos := List.length_pos_of_mem hbf
      simp only [recentWindow, List.length_drop, KEEP_RECENT_MESSAGES]
      omega
    omega

def c6wInput : List Message := [mkMsg 0 Role.system ['s'], mkMsg 1 Role.user ['h','i']]

/-- Witness for the amended C6 at a concrete system + user conversation. -/
theorem C6_floor_witness : 2 ≤ (trimConversation c6wInput).length :=
  C6_floor c6wInput (by decide) (by decide)

def c6Sys1 : Message :=
  { id := "s1", role := Role.system, content := List.replicate 16000 'a', timestamp := 0 }
def c6Sys2 : Message :=
  { id := "s2", role := Role.system, content := ['h','i'], timestamp := 1 }
def c6Input : List Message := [c6Sys1, c6Sys2]

/-- Claim C6 counterexample: an input containing a system turn and at least
one other turn (a second system turn), on which trimConversation returns a
single turn — the literal claim admits this input, and the code keeps only
the pinned first system turn because the recency window holds non-system
turns only. -/
theorem C6_counterexample :
    c6Sys1 ∈ c6Input ∧ c6Sys1.role = Role.system ∧ c6Sys2 ∈ c6Input ∧ c6Sys2 ≠ c6Sys1 ∧
      (trimConversation c6Input).length = 1 := by
  have hest1 : estimateTokens c6Sys1 = 4010 := by
    have hl : c6Sys1.content.length = 16000 := by
      rw [show c6Sys1.content = List.replicate 16000 'a' from rfl, List.length_replicate]
    simp only [estimateTokens, hl]
  have hest2 : estimateTokens c6Sys2 = 11 := by decide
  have htot : calculateTotalTokens c6Input = 4021 := by
    rw [calculateTotalTokens_eq_sum]
    simp [c6Input, hest1, hest2]
  have hover : ¬((c6Input.filter (fun msg => msg.role != Role.system)).length ≤ MAX_MESSAGES ∧
      calculateTotalTokens c6Input ≤ MAX_TOKENS) := by
    rw [htot]
    exact fun hc => absurd hc.2 (by norm_num [MAX_TOKENS])
  have hfind : c6Input.find? (fun msg => msg.role == Role.system) = some c6Sys1 := rfl
  have hfil : c6Input.filter (fun msg => msg.role != Role.system) = [] := rfl
  have htrim : trimConversation c6Input = [c6Sys1] := by
    rw [trimConversation_of_over hover]
    have hpin : pinnedSystem c6Input = [c6Sys1] := by
      simp only [pinnedSystem, hfind]
    have hrecw : recentWindow c6Input = [] := by
      simp only [recentWindow, hfil, List.drop_nil]
    rw [hpin, hrecw, List.append_nil]
    exact trimLoop_eq_self (fun hc => by simp at hc)
  refine ⟨by simp [c6Input], rfl, by simp [c6Input], ?_, by rw [htrim]; rfl⟩
  intro he
  have hid : c6Sys2.id = c6Sys1.id := by rw [he]
  exact absurd hid (by decide)

def c4User : Message := mkMsg 0 Role.user ['h','i']
def c4Sys : Message := mkMsg 1 Role.system ['s','y','s']
def c4Input : List Message := [c4User, c4Sys]

/-- Claim C4 counterexample: an under-budget input whose (only) system turn is
not in first position — trimConversation returns it unchanged, so the system
turn is not the first element of the output. -/
theorem C4_counterexample :
    c4Input.find? (fun msg => msg.role == Role.system) = some c4Sys ∧
      (trimConversation c4Input).head? = some c4User ∧
      c4User.role ≠ Role.system := by decide

/-- Claim C4 (amended): when trimming actually occurs (the input is over the
message-count or token budget) and the input has a system turn, the first
system turn is the first element of the output and the only system turn in
it; when the input is within budget, the output is the input unchanged (so
the system turn keeps its original position). -/
theorem C4_system_pin (ts : List Message) (s : Message)
    (hfind : ts.find? (fun msg => msg.role == Role.system) = some s)
    (hover : ¬((ts.filter (fun msg => msg.role != Role.system)).length ≤ MAX_MESSAGES ∧
      calculateTotalTokens ts ≤ MAX_TOKENS)) :
    (trimConversation ts).head? = some s ∧
      ∀ m ∈ (trimConversation ts).tail, m.role ≠ Role.system := by
  obtain ⟨t2, heq, hsub⟩ := trimConversation_over_sys hfind hover
  rw [heq]
  refine ⟨rfl, ?_⟩
  intro m hm
  have hr := mem_recentWindow_role (hsub (by simpa using hm))
  simpa using hr

def c4wSys : Message := mkMsg 100 Role.system ['s']
def c4wInput : List Message :=
  c4wSys :: (List.range 31).map (fun i => mkMsg i Role.user ['h','i'])

/-- Witness for the amended C4: 31 user turns force trimming and the system
turn ends up first. -/
theorem C4_system_pin_witness : (trimConversation c4wInput).head? = some c4wSys :=
  (C4_system_pin c4wInput c4wSys (by decide) (by decide)).1

def c3Content : List Char := List.replicate 10000 'a' ++ [' ']

/-- Claim C3 counterexample: a message of 10,000 characters followed by one
space has trimmed length 10,000 (not over the limit according to the claim),
yet validateMessage rejects it as too long because the code checks the raw,
untrimmed length. -/
theorem C3_counterexample :
    (jsTrim c3Content).length ≤ 10000 ∧ (jsTrim c3Content).length ≠ 0 ∧
      validateMessage c3Content = { valid := false, error := some errTooLong } := by
  have htrim : jsTrim c3Content = List.replicate 10000 'a' :=
    jsTrim_replicate_a_space 10000 (by norm_num)
  have hlen : c3Content.length = 10001 := by
    unfold c3Content
    rw [List.length_append, List.length_replicate, List.length_singleton]
  have h1 : ¬(c3Content = []) := by
    intro h
    have hcontr := congrArg List.length h
    rw [hlen] at hcontr
    exact absurd hcontr (by norm_num)
  have h2 : ¬((jsTrim c3Content).length = 0) := by
    rw [htrim, List.length_replicate]
    norm_num
  have h3 : 10000 < c3Content.length := by rw [hlen]; norm_num
  refine ⟨by rw [htrim, List.length_replicate], h2, ?_⟩
  unfold validateMessage
  rw [if_neg h1, if_neg h2, if_pos h3]

/-- Claim C3 (amended): for inputs with non-empty trimmed content,
validateMessage rejects with the too-long reason exactly when the RAW
(untrimmed) length exceeds 10,000 characters. -/
theorem C3_too_long (content : List Char) (h : (jsTrim content).length ≠ 0) :
    validateMessage content = { valid := false, error := some errTooLong } ↔
      10000 < content.length := by
  have h1 : ¬(content = []) := by
    intro he
    subst he
    exact h (by rfl)
  unfold validateMessage
  rw [if_neg h1, if_neg h]
  by_cases h3 : 10000 < content.length
  · rw [if_pos h3]
    simp [h3]
  · rw [if_neg h3]
    constructor
    · intro hv
      by_cases h4 : containsMaliciousPattern content = true
      · rw [if_pos h4] at hv
        exact absurd hv (by decide)
      · rw [if_neg h4] at hv
        exact absurd hv (by decide)
    · intro hc
      exact absurd hc h3

def c3w : List Char := List.replicate 10001 'a'

/-- Witness for the amended C3: 10,001 repetitions of a single character are
rejected as too long. -/
theorem C3_too_long_witness :
    validateMessage c3w = { valid := false, error := some errTooLong } :=
  (C3_too_long c3w (by rw [c3w, jsTrim_replicate_a, List.length_replicate]; norm_num)).mpr
    (by rw [c3w, List.length_replicate]; norm_num)

def c1History : List Message := (List.range 31).map (fun i => mkMsg i Role.user ['h','i'])
def c1User : Message := mkMsg 31 Role.user ['y','o']
def c1Assistant : Message := assistantMessageOf "a1" 31 none ['o','k']

/-- Claim C1 counterexample: with 31 prior user turns the handler stores the
trimmed history back into the session, so the stored history after the
request is not the prior history plus the two new turns, and the oldest prior
turn is gone from the session store. -/
theorem C1_counterexample :
    (processChat c1History c1User "a1" 31 (ProviderResult.ok ['o','k'])).stored ≠
        c1History ++ [c1User, c1Assistant] ∧
      mkMsg 0 Role.user ['h','i'] ∈ c1History ∧
      mkMsg 0 Role.user ['h','i'] ∉
        (processChat c1History c1User "a1" 31 (ProviderResult.ok ['o','k'])).stored := by
  have hover : ¬(((c1History ++ [c1User]).filter
      (fun msg => msg.role != Role.system)).length ≤ MAX_MESSAGES ∧
        calculateTotalTokens (c1History ++ [c1User]) ≤ MAX_TOKENS) := by
    intro hc
    exact absurd hc.1 (by decide)
  have hfind : (c1History ++ [c1User]).find? (fun msg => msg.role == Role.system) = none := by
    decide
  have htok : calculateTotalTokens (recentWindow (c1History ++ [c1User])) ≤ MAX_TOKENS := by
    decide
  have hloop : trimLoop (recentWindow (c1History ++ [c1User])) =
      recentWindow (c1History ++ [c1User]) :=
    trimLoop_eq_self (fun hc => absurd hc.2 (not_lt.mpr htok))
  have htrim : trimConversation (c1History ++ [c1User]) =
      recentWindow (c1History ++ [c1User]) := by
    rw [trimConversation_over_nosys hfind hover, hloop]
  have hstored : (processChat c1History c1User "a1" 31 (ProviderResult.ok ['o','k'])).stored =
      recentWindow (c1History ++ [c1User]) ++ [c1Assistant] := by
    show trimConversation (c1History ++ [c1User]) ++
        [assistantMessageOf "a1" 31 c1User.conversationId ['o','k']] = _
    rw [htrim]
    rfl
  refine ⟨?_, by decide, ?_⟩
  · rw [hstored]
    decide
  · rw [hstored]
    decide

/-- Claim C1 (amended): the handler stores the trimmed appended history plus
the assistant turn back into the session, and the provider receives exactly
that same trimmed list; the prior history is fully preserved in the session
only when the appended history is within the message-count and token
budgets. -/
theorem C1_history_update (history : List Message) (u : Message) (aid : String)
    (ts : Int) (text : List Char) :
    (processChat history u aid ts (ProviderResult.ok text)).sentToProvider =
        trimConversation (history ++ [u]) ∧
      (processChat history u aid ts (ProviderResult.ok text)).stored =
        trimConversation (history ++ [u]) ++
          [assistantMessageOf aid ts u.conversationId text] ∧
      ((((history ++ [u]).filter (fun msg => msg.role != Role.system)).length ≤ MAX_MESSAGES ∧
          calculateTotalTokens (history ++ [u]) ≤ MAX_TOKENS) →
        (processChat history u aid ts (ProviderResult.ok text)).stored =
          (history ++ [u]) ++ [assistantMessageOf aid ts u.conversationId text]) := by
  refine ⟨rfl, rfl, fun hle => ?_⟩
  show trimConversation (history ++ [u]) ++
      [assistantMessageOf aid ts u.conversationId text] = _
  rw [trimConversation_of_le hle]

/-- Witness for the amended C1: a short conversation is stored in full. -/
theorem C1_history_update_witness :
    (processChat [mkMsg 0 Role.system ['s']] (mkMsg 1 Role.user ['h','i']) "a1" 5
        (ProviderResult.ok ['o','k'])).stored =
      ([mkMsg 0 Role.system ['s']] ++ [mkMsg 1 Role.user ['h','i']]) ++
        [assistantMessageOf "a1" 5 (mkMsg 1 Role.user ['h','i']).conversationId ['o','k']] :=
  (C1_history_update [mkMsg 0 Role.system ['s']] (mkMsg 1 Role.user ['h','i']) "a1" 5
    ['o','k']).2.2 (by decide)

def c2History : List Message := [mkMsg 0 Role.system ['s']]
def c2User : Message := mkMsg 1 Role.user ['h','i']

/-- Claim C2 counterexample: after a provider failure the stored session
history is just the trimmed history ending with the user turn — no assistant
turn of any kind (in particular no generic-failure assistant turn) was
appended to it. -/
theorem C2_counterexample :
    (processChat c2History c2User "a1" 5 ProviderResult.providerError).stored =
        c2History ++ [c2User] ∧
      ((processChat c2History c2User "a1" 5 ProviderResult.providerError).stored.all
        (fun m => m.role != Role.assistant)) = true := by
  decide

lemma updateMessageStatus_append (l1 l2 : List OptimisticMessage) (i : String)
    (st : MessageStatus) :
    updateMessageStatus (l1 ++ l2) i st =
      updateMessageStatus l1 i st ++ updateMessageStatus l2 i st :=
  List.map_append _ _ _

lemma updateMessageContent_append (l1 l2 : List OptimisticMessage) (i : String)
    (c : List Char) (st : Option MessageStatus) :
    updateMessageContent (l1 ++ l2) i c st =
      updateMessageContent l1 i c st ++ updateMessageContent l2 i c st :=
  List.map_append _ _ _

/-- Claim C2 (amended): on a ProviderError the backend appends no assistant
turn — the stored session history is exactly the trimmed history ending with
the user turn. The generic failure text exists only in the frontend
transcript, where the assistant placeholder is finalized with
`errorFallbackText`; even there the final status is `sent`, not a retryable
`error`, because the status set by the `onError` callback is overwritten once
the stream call resolves. -/
theorem C2_provider_error (history : List Message) (u : Message) (aid : String) (ts : Int)
    (msgs : List OptimisticMessage) (content : List Char) (uid amid : String) (now : Int)
    (hu : ∀ m ∈ msgs, m.id ≠ uid) (ha : ∀ m ∈ msgs, m.id ≠ amid) (hne : uid ≠ amid) :
    (processChat history u aid ts ProviderResult.providerError).stored =
        trimConversation (history ++ [u]) ∧
      handleSendMessageError msgs content uid amid now =
        msgs ++ [⟨uid, Role.user, content, now, MessageStatus.sent⟩,
          ⟨amid, Role.assistant, errorFallbackText, now, MessageStatus.sent⟩] := by
  refine ⟨rfl, ?_⟩
  show updateMessageStatus
      (updateMessageContent
        ((updateMessageStatus
            (msgs ++ [⟨uid, Role.user, content, now, MessageStatus.sending⟩])
            uid MessageStatus.sent) ++
          [⟨amid, Role.assistant, [], now, MessageStatus.streaming⟩])
        amid errorFallbackText (some MessageStatus.error))
      amid MessageStatus.sent = _
  have h1 : updateMessageStatus
      (msgs ++ [⟨uid, Role.user, content, now, MessageStatus.sending⟩]) uid MessageStatus.sent =
      msgs ++ [⟨uid, Role.user, content, now, MessageStatus.sent⟩] := by
    rw [updateMessageStatus_append, updateMessageStatus_skip hu]
    congr 1
    simp [updateMessageStatus]
  have h2 : updateMessageContent
      ((msgs ++ [⟨uid, Role.user, content, now, MessageStatus.sent⟩]) ++
        [⟨amid, Role.assistant, [], now, MessageStatus.streaming⟩])
      amid errorFallbackText (some MessageStatus.error) =
      (msgs ++ [⟨uid, Role.user, content, now, MessageStatus.sent⟩]) ++
        [⟨amid, Role.assistant, errorFallbackText, now, MessageStatus.error⟩] := by
    rw [updateMessageContent_append, updateMessageContent_append,
      updateMessageContent_skip ha]
    congr 2
    · simp [updateMessageContent, hne]
    · simp [updateMessageContent]
  have h3 : updateMessageStatus
      ((msgs ++ [⟨uid, Role.user, content, now, MessageStatus.sent⟩]) ++
        [⟨amid, Role.assistant, errorFallbackText, now, MessageStatus.error⟩])
      amid MessageStatus.sent =
      (msgs ++ [⟨uid, Role.user, content, now, MessageStatus.sent⟩]) ++
        [⟨amid, Role.assistant, errorFallbackText, now, MessageStatus.sent⟩] := by
    rw [updateMessageStatus_append, updateMessageStatus_append,
      updateMessageStatus_skip ha]
    congr 2
    · simp [updateMessageStatus, hne]
    · simp [updateMessageStatus]
  rw [h1, h2, h3, List.append_assoc]
  rfl

/-- Witness for the amended C2 at concrete inputs. -/
theorem C2_provider_error_witness :
    (processChat [mkMsg 0 Role.system ['s']] (mkMsg 1 Role.user ['h','i']) "a9" 7
          ProviderResult.providerError).stored =
        trimConversation ([mkMsg 0 Role.system ['s']] ++ [mkMsg 1 Role.user ['h','i']]) ∧
      handleSendMessageError [] ['h','i'] "u1" "a1" 3 =
        [] ++ [⟨"u1", Role.user, ['h','i'], 3, MessageStatus.sent⟩,
          ⟨"a1", Role.assistant, errorFallbackText, 3, MessageStatus.sent⟩] :=
  C2_provider_error [mkMsg 0 Role.system ['s']] (mkMsg 1 Role.user ['h','i']) "a9" 7
    [] ['h','i'] "u1" "a1" 3 (by decide) (by decide) (by decide)

end Chatbot
